import Mathlib

/-!
Verification development for the rust-autohedge trading engine.

Shallow embedding conventions:
* Rust `f64` prices / quantities are modelled as exact rationals (`ℚ`);
  every arithmetic operation appearing in the source is comparison,
  clamping, or field arithmetic, so the order-theoretic facts proved
  here hold verbatim for the source expressions.
* `Instant` timestamps are modelled as natural-number seconds;
  `Instant::elapsed` at time `now` for a stamp `t` is `now - t`
  (truncated subtraction, durations are non-negative).
* Rust `HashMap` maps are modelled as association lists with
  insert-replaces-key semantics (`assocInsert`); iteration order of a
  `HashMap` is unspecified in Rust, and no theorem below depends on the
  order chosen by the model.
* Venue / LLM interactions (`get_positions`, `submit_order`,
  `get_order`, agent calls, `serde_json::from_str`) are external
  collaborators; each call's response is an explicit parameter of the
  embedded function, and the calls a function performs are recorded in
  an explicit trace so that counting claims ("exactly once") are
  statable.
* Strings are modelled as Lean `String`/`List Char`; ASCII inputs are
  assumed where Rust works with byte indices (all literals involved are
  ASCII).
-/

namespace AutoHedge

/-! ## Market data store  (src/data/store.rs) -/

structure Quote where
  symbol : String
  bid_price : ℚ
  ask_price : ℚ
  bid_size : ℚ
  ask_size : ℚ
  timestamp : String
deriving DecidableEq

structure Trade where
  symbol : String
  price : ℚ
  size : ℚ
  timestamp : String
  id : Option Nat
deriving DecidableEq

structure Bar where
  symbol : String
  open_p : ℚ
  high : ℚ
  low : ℚ
  close : ℚ
  volume : ℚ
  timestamp : String
deriving DecidableEq

/-- Body shared by `MarketStore::update_bar/update_trade/update_quote`:
`if queue.len() >= self.limit { queue.pop_front(); } queue.push_back(x)`.
The `VecDeque` is a list whose head is the front (oldest element). -/
def pushBounded (limit : Nat) (q : List α) (x : α) : List α :=
  if limit ≤ q.length then q.tail ++ [x] else q ++ [x]

/-- `MarketStore::update_quote` acting on one symbol's queue. -/
def update_quote (limit : Nat) (q : List Quote) (x : Quote) : List Quote :=
  pushBounded limit q x

/-- `MarketStore::update_trade` acting on one symbol's queue. -/
def update_trade (limit : Nat) (q : List Trade) (x : Trade) : List Trade :=
  pushBounded limit q x

/-- `MarketStore::update_bar` acting on one symbol's queue. -/
def update_bar (limit : Nat) (q : List Bar) (x : Bar) : List Bar :=
  pushBounded limit q x

/-! ## Order sizing  (src/services/execution_utils.rs) -/

structure OrderSizing where
  qty : ℚ
  notional : ℚ
  limit_price : ℚ
deriving DecidableEq

/-- `compute_order_sizing` from src/services/execution_utils.rs lines 88-126,
with `f64` replaced by `ℚ` (the function only multiplies, divides and
compares). -/
def compute_order_sizing (price buying_power min_order max_order
    target_pct_of_balance : ℚ) : Option OrderSizing :=
  if price ≤ 0 ∨ buying_power ≤ 0 then none
  else
    let notional0 := buying_power * target_pct_of_balance
    let notional1 := if notional0 < min_order then min_order else notional0
    let notional2 := if notional1 > max_order then max_order else notional1
    let max_affordable := buying_power * (95 / 100)
    if notional2 > max_affordable then
      if max_affordable < min_order then none
      else some ⟨max_affordable / price, max_affordable, price⟩
    else some ⟨notional2 / price, notional2, price⟩

/-! ## HFT strategy evaluation  (src/services/strategy.rs) -/

structure HftConfig where
  evaluate_every_quotes : Nat
  min_edge_bps : ℚ
  take_profit_bps : ℚ
  stop_loss_bps : ℚ
  max_spread_bps : ℚ
deriving DecidableEq

/-- Per-symbol mutable state of the HFT evaluator (`HftSymbolState`).
`mids` is the ring of recent mid prices, head = oldest. -/
structure HftSymbolState where
  quotes_since_eval : Nat
  last_mid : Option ℚ
  mids : List ℚ
deriving DecidableEq

/-- The buy signal an HFT evaluation publishes (`AnalysisSignal`).  The
`market_context` string is `format!("tp={:.8}, sl={:.8}", tp, sl)`; it is
modelled by its two encoded numbers, which is exactly what
`RiskEngine::assess_risk`'s fast path parses back out of it. -/
structure HftSignal where
  symbol : String
  signal : String
  confidence : ℚ
  context_tp : ℚ
  context_sl : ℚ
deriving DecidableEq

/-- `while entry.mids.len() > 30 { entry.mids.pop_front(); }` -/
def trimRing (l : List ℚ) : List ℚ := l.drop (l.length - 30)

/-- `StrategyEngine::evaluate_hft` (src/services/strategy.rs lines
235-331) as a pure transition on the per-symbol state, returning the
new state and the published signal, if any.  Publication on the bus is
the `Option.some` result. -/
def evaluate_hft (cfg : HftConfig) (symbol : String) (bid ask : ℚ)
    (st : HftSymbolState) : HftSymbolState × Option HftSignal :=
  if bid ≤ 0 ∨ ask ≤ 0 ∨ ask < bid then (st, none)
  else
    let mid := (bid + ask) / 2
    let spread_bps := ((ask - bid) / mid) * 10000
    if spread_bps > cfg.max_spread_bps then (st, none)
    else
      let count := st.quotes_since_eval + 1
      let mids := trimRing (st.mids ++ [mid])
      if count < cfg.evaluate_every_quotes then
        ({ quotes_since_eval := count, last_mid := some mid, mids := mids }, none)
      else
        let lookback := min 10 (mids.length - 1)
        if lookback = 0 then
          ({ quotes_since_eval := 0, last_mid := some mid, mids := mids }, none)
        else
          let past := ((mids.get? (mids.length - 1 - lookback)).getD mid)
          let edge_bps := ((mid - past) / past) * 10000
          let st' : HftSymbolState :=
            { quotes_since_eval := 0, last_mid := some mid, mids := mids }
          if edge_bps < cfg.min_edge_bps then (st', none)
          else
            (st', some { symbol := symbol, signal := "buy", confidence := 1,
                         context_tp := mid * (1 + cfg.take_profit_bps / 10000),
                         context_sl := mid * (1 - cfg.stop_loss_bps / 10000) })

/-- The edge the spec's formula prescribes for a ring `mids` and current
mid `mid`: `(mid - ring[len-1-lookback])/ring[len-1-lookback] * 10_000`
with `lookback = min(10, len(ring)-1)`. -/
def claimedEdgeBps (mids : List ℚ) (mid : ℚ) : ℚ :=
  let lookback := min 10 (mids.length - 1)
  let past := (mids.get? (mids.length - 1 - lookback)).getD mid
  ((mid - past) / past) * 10000

/-! ## Position tracker  (src/services/position_monitor.rs lines 15-141) -/

structure PositionInfo where
  symbol : String
  entry_price : ℚ
  qty : ℚ
  stop_loss : ℚ
  take_profit : ℚ
  entry_time : String
  side : String
  is_closing : Bool
  open_order_id : Option String
  last_recreate_attempt : Option Nat
  recreate_attempts : Nat
  highest_price : ℚ
  trailing_stop_active : Bool
  trailing_stop_price : ℚ
deriving DecidableEq

structure PendingOrder where
  order_id : String
  symbol : String
  side : String
  limit_price : ℚ
  qty : ℚ
  created_at : String
  stop_loss : Option ℚ
  take_profit : Option ℚ
  last_check_time : Option Nat
deriving DecidableEq

/-- Insert-replacing-the-key, the effect of `HashMap::insert`. -/
def assocInsert (k : String) (v : β) (m : List (String × β)) : List (String × β) :=
  (k, v) :: m.filter (fun p => p.1 ≠ k)

/-- `HashMap::get`. -/
def assocGet (m : List (String × β)) (k : String) : Option β :=
  (m.find? (fun p => p.1 = k)).map (·.2)

/-- `HashMap::remove` (the returned value is not modelled; callers of
`remove_position`/`remove_pending_order` in the verified paths ignore it). -/
def assocRemove (k : String) (m : List (String × β)) : List (String × β) :=
  m.filter (fun p => p.1 ≠ k)

structure PositionTracker where
  positions : List (String × PositionInfo)
  pending_orders : List (String × PendingOrder)
deriving DecidableEq

/-- `PositionTracker::add_position`: forces `is_closing = false` before
inserting (lines 88-97). -/
def PositionTracker.add_position (t : PositionTracker) (info : PositionInfo) :
    PositionTracker :=
  { t with positions :=
      assocInsert info.symbol { info with is_closing := false } t.positions }

/-- `PositionTracker::mark_closing` (lines 99-105). -/
def PositionTracker.mark_closing (t : PositionTracker) (symbol : String) :
    PositionTracker :=
  { t with positions := t.positions.map (fun p =>
      if p.1 = symbol then (p.1, { p.2 with is_closing := true }) else p) }

/-- `PositionTracker::remove_position`. -/
def PositionTracker.remove_position (t : PositionTracker) (symbol : String) :
    PositionTracker :=
  { t with positions := assocRemove symbol t.positions }

/-- `PositionTracker::get_position`. -/
def PositionTracker.get_position (t : PositionTracker) (symbol : String) :
    Option PositionInfo :=
  assocGet t.positions symbol

/-- `PositionTracker::has_position`. -/
def PositionTracker.has_position (t : PositionTracker) (symbol : String) : Bool :=
  (t.get_position symbol).isSome

/-- `PositionTracker::add_pending_order`: stamps `last_check_time` with the
current instant (lines 61-69). -/
def PositionTracker.add_pending_order (t : PositionTracker) (now : Nat)
    (order : PendingOrder) : PositionTracker :=
  let stamped : PendingOrder := { order with last_check_time := some now }
  { t with pending_orders := assocInsert stamped.order_id stamped t.pending_orders }

/-- `PositionTracker::remove_pending_order`. -/
def PositionTracker.remove_pending_order (t : PositionTracker) (order_id : String) :
    PositionTracker :=
  { t with pending_orders := assocRemove order_id t.pending_orders }

/-- `PositionTracker::get_all_pending_orders`. -/
def PositionTracker.get_all_pending_orders (t : PositionTracker) : List PendingOrder :=
  t.pending_orders.map (·.2)

/-! ## String helpers used by the monitor and risk gate -/

/-- ASCII lowercase of one character (`u8::to_ascii_lowercase`). -/
def asciiLowerChar (c : Char) : Char :=
  if 'A' ≤ c ∧ c ≤ 'Z' then Char.ofNat (c.toNat + 32) else c

/-- Rust `str::eq_ignore_ascii_case`. -/
def eqIgnoreAsciiCase (a b : String) : Bool :=
  a.data.map asciiLowerChar = b.data.map asciiLowerChar

/-- Substring containment on character lists (Rust `str::contains` for the
ASCII needles used in the source). -/
def containsSub : List Char → List Char → Bool
  | l, needle =>
    match l with
    | [] => needle.isEmpty
    | _ :: t => needle.isPrefixOf l || containsSub t needle

/-- Rust `str::contains` over `String`. -/
def strContains (s pat : String) : Bool := containsSub s.data pat.data

/-- Recognition of an insufficient-balance submission error
(src/services/position_monitor.rs lines 822-825):
`(msg.contains("403") && msg.contains("40310000")) || msg.contains("insufficient balance")`. -/
def insufficient_balance_error (msg : String) : Bool :=
  (strContains msg "403" && strContains msg "40310000")
    || strContains msg "insufficient balance"

/-! ## Position monitor  (src/services/position_monitor.rs) -/

/-- A position held at the venue as reported by `get_positions`
(`exchange::types::Position`, only the fields the monitor reads). -/
structure VenuePosition where
  symbol : String
  qty : ℚ
deriving DecidableEq

/-- Observable side effects of a monitor step besides the tracker update:
signals published on the bus and invocations of the recreate pass. -/
inductive MonitorEffect
  | exitSignal (symbol : String) (reason : String) (current_price : ℚ)
  | recreateInvoked (pos : PositionInfo)
deriving DecidableEq

/-- Venue calls `recreate_limit_sell_order` performs, in order. -/
inductive VenueCall
  | getPositions
  | submitSell (symbol : String) (qty : ℚ) (limit_price : ℚ)
deriving DecidableEq

/-- The 30-second recreate cooldown guard (lines 353-359):
`last_attempt.elapsed() < Duration::from_secs(30)`. -/
def cooldown_active (now : Nat) (p : PositionInfo) : Bool :=
  match p.last_recreate_attempt with
  | some tl => decide (now - tl < 30)
  | none => false

/-- Lines 367-369: is there a pending sell order for this symbol in the
snapshot taken at the top of the event iteration? -/
def isPendingSellFor (symbol : String) (o : PendingOrder) : Bool :=
  o.symbol = symbol && o.side = "sell"

/-- The take-profit / stop-loss checks of the quote-driven loop
(lines 411-436): publish `take_profit` when `current_price >= take_profit`,
else `stop_loss` when `current_price <= stop_loss`, marking the position
closing in either case. -/
def tpSlCheck (price : ℚ) (p : PositionInfo) (t : PositionTracker) :
    PositionTracker × List MonitorEffect :=
  if p.take_profit ≤ price then
    (t.mark_closing p.symbol, [.exitSignal p.symbol "take_profit" price])
  else if price ≤ p.stop_loss then
    (t.mark_closing p.symbol, [.exitSignal p.symbol "stop_loss" price])
  else (t, [])

/-- The position-policing block of `PositionMonitor::start_quote_driven`
(lines 333-437), for one inbound event carrying `(symbol, current_price)`
with `current_price > 0`.  `pending` is the snapshot
`tracker.get_all_pending_orders()` taken at line 241.  The recreate pass
the block triggers is recorded as a `MonitorEffect.recreateInvoked`; its
own venue interaction is modelled separately by
`recreate_limit_sell_order`. -/
def monitor_position_step (now : Nat) (price : ℚ) (pending : List PendingOrder)
    (t : PositionTracker) (symbol : String) : PositionTracker × List MonitorEffect :=
  match t.get_position symbol with
  | none => (t, [])
  | some p =>
    if p.is_closing then (t, [])
    else if p.open_order_id.isNone then
      if 3 ≤ p.recreate_attempts then (t.remove_position p.symbol, [])
      else if cooldown_active now p then (t, [])
      else if !(pending.any (isPendingSellFor p.symbol)) then
        let updated : PositionInfo :=
          { p with last_recreate_attempt := some now,
                   recreate_attempts := p.recreate_attempts + 1 }
        (t.add_position updated, [.recreateInvoked updated])
      else
        match pending.find? (isPendingSellFor p.symbol) with
        | some o =>
          tpSlCheck price p (t.add_position { p with open_order_id := some o.order_id })
        | none => (t, [])
    else (t, [])

/-- `PositionMonitor::check_pending_sell_order` (lines 668-709).  `ack` is
the venue's `get_order` response: `Except` error or the order status
string. -/
def check_pending_sell_order (ack : Except String String) (order : PendingOrder)
    (t : PositionTracker) : PositionTracker × List MonitorEffect :=
  match ack with
  | .error _ => (t, [])
  | .ok status =>
    if eqIgnoreAsciiCase status "filled" then
      ((t.remove_pending_order order.order_id).remove_position order.symbol, [])
    else if eqIgnoreAsciiCase status "canceled" || eqIgnoreAsciiCase status "expired" then
      let t1 := t.remove_pending_order order.order_id
      match t1.get_position order.symbol with
      | some pos =>
        let cleared : PositionInfo := { pos with open_order_id := none }
        (t1.add_position cleared, [.recreateInvoked cleared])
      | none => (t1, [])
    else (t, [])

/-- First half of `recreate_limit_sell_order` (lines 722-744): the holdings
verification fetch.  Returns `(actual_qty, position_exists)`. -/
def verify_holdings (fetch1 : Except String (List VenuePosition))
    (p : PositionInfo) : ℚ × Bool :=
  match fetch1 with
  | .ok ps =>
    match ps.find? (fun v => v.symbol = p.symbol) with
    | some vp => (vp.qty, true)
    | none => (0, false)
  | .error _ => (p.qty, true)

/-- `f64::abs`, written so it evaluates by kernel reduction. -/
def ratAbs (q : ℚ) : ℚ := if q < 0 then -q else q

/-- The quantity `recreate_limit_sell_order` submits (`final_qty`, lines
757-771): the venue quantity when it differs from the tracked one by more
than the `1e-6` epsilon, the tracked quantity otherwise. -/
def reconciled_qty (fetch1 : Except String (List VenuePosition))
    (p : PositionInfo) : ℚ :=
  let v := verify_holdings fetch1 p
  if (1 : ℚ) / 1000000 < ratAbs (v.1 - p.qty) then v.1 else p.qty

/-- `PositionMonitor::recreate_limit_sell_order` (lines 712-934).  The
venue responses are explicit parameters: `fetch1` answers the initial
`get_positions` verification, `submit1` the first `submit_order` (yielding
the new order id or an error message), `fetch2` the re-fetch performed on
an insufficient-balance error, `submit2` the retry submission.  `now` and
`nowStr` stand for `Instant::now()` / `Utc::now().to_rfc3339()`.  The
second component records, in order, every venue call actually made. -/
def recreate_limit_sell_order
    (fetch1 : Except String (List VenuePosition))
    (submit1 : Except String String)
    (fetch2 : Except String (List VenuePosition))
    (submit2 : Except String String)
    (now : Nat) (nowStr : String)
    (p : PositionInfo) (t : PositionTracker) : PositionTracker × List VenueCall :=
  let v := verify_holdings fetch1 p
  if !v.2 then (t.remove_position p.symbol, [.getPositions])
  else
    let mismatch : Bool := decide ((1 : ℚ) / 1000000 < ratAbs (v.1 - p.qty))
    let t1 := if mismatch then t.add_position { p with qty := v.1 } else t
    let final_qty := reconciled_qty fetch1 p
    if final_qty ≤ 0 then (t1.remove_position p.symbol, [.getPositions])
    else
      let calls0 : List VenueCall :=
        [.getPositions, .submitSell p.symbol final_qty p.take_profit]
      match submit1 with
      | .ok id =>
        let pend : PendingOrder :=
          { order_id := id, symbol := p.symbol, side := "sell",
            limit_price := p.take_profit, qty := final_qty, created_at := nowStr,
            stop_loss := none, take_profit := none, last_check_time := none }
        let t2 := t1.add_position { p with open_order_id := some id }
        (t2.add_pending_order now pend, calls0)
      | .error msg =>
        if insufficient_balance_error msg then
          match fetch2 with
          | .ok ps2 =>
            match ps2.find? (fun v => v.symbol = p.symbol) with
            | some vp =>
              if vp.qty ≤ 0 then (t1, calls0 ++ [.getPositions])
              else
                let t2 := t1.add_position { p with qty := vp.qty }
                let calls1 := calls0 ++
                  [VenueCall.getPositions, .submitSell p.symbol vp.qty p.take_profit]
                match submit2 with
                | .ok id2 =>
                  let pend2 : PendingOrder :=
                    { order_id := id2, symbol := p.symbol, side := "sell",
                      limit_price := p.take_profit, qty := vp.qty,
                      created_at := nowStr, stop_loss := none, take_profit := none,
                      last_check_time := none }
                  let t3 := t2.add_position
                    { p with qty := vp.qty, open_order_id := some id2 }
                  (t3.add_pending_order now pend2, calls1)
                | .error _ => (t2, calls1)
            | none => (t1.remove_position p.symbol, calls0 ++ [.getPositions])
          | .error _ => (t1, calls0 ++ [.getPositions])
        else (t1, calls0)

/-! ## Risk gate, LLM path  (src/services/risk.rs) -/

/-- Minimal JSON value model for `serde_json::Value`. -/
inductive Json
  | null
  | bool (b : Bool)
  | num (q : ℚ)
  | str (s : String)
  | arr (xs : List Json)
  | obj (fields : List (String × Json))

/-- `Value::get(key)` on objects. -/
def Json.getKey : Json → String → Option Json
  | .obj fields, k => (fields.find? (fun f => f.1 = k)).map (·.2)
  | _, _ => none

/-- `Value::as_f64` (every JSON number converts). -/
def Json.asF64 : Json → Option ℚ
  | .num q => some q
  | _ => none

/-- `AccountSummary` (only the fields the risk gate reads). -/
structure AccountSummary where
  cash : Option ℚ
  portfolio_value : Option ℚ
  buying_power : Option ℚ
deriving DecidableEq

structure OrderRequest where
  symbol : String
  action : String
  qty : ℚ
  order_type : String
  limit_price : Option ℚ
  stop_loss : Option ℚ
  take_profit : Option ℚ
deriving DecidableEq

/-- Index of the first occurrence of `c` (`str::find` for a `char`
pattern; byte index = character index on the ASCII inputs modelled). -/
def firstIdxOf (c : Char) (s : List Char) : Option Nat :=
  s.findIdx? (fun d => d = c)

/-- Index of the last occurrence of `c` (`str::rfind`). -/
def lastIdxOf (c : Char) (s : List Char) : Option Nat :=
  (s.reverse.findIdx? (fun d => d = c)).map (fun i => s.length - 1 - i)

/-- The slice `&resp[start..=end]` taken by `parse_risk_parameters`
between the first `\x7b` and the last `\x7d` (risk.rs lines 139-147).
`none` models the Rust panic raised by `resp[start..=end]` when
`start > end + 1` (slice index order violation). -/
def extract_json_slice (s : List Char) : Option (List Char) :=
  match firstIdxOf '{' s with
  | none => some s
  | some st =>
    match lastIdxOf '}' s with
    | none => some s
    | some en =>
      if st ≤ en + 1 then some ((s.drop st).take (en + 1 - st)) else none

/-- `RiskEngine::parse_risk_parameters` (risk.rs lines 137-160).
`fromStr` stands for `serde_json::from_str`, an external library call;
the outer `none` propagates the slicing panic. -/
def parse_risk_parameters (fromStr : List Char → Option Json) (resp : List Char) :
    Option (Option ℚ × Option ℚ) :=
  match extract_json_slice resp with
  | none => none
  | some slice =>
    match fromStr slice with
    | some j => some (j.getKey "stop_loss" >>= Json.asF64,
                      j.getKey "take_profit" >>= Json.asF64)
    | none => some (none, none)

/-- Result of one `assess_risk` invocation: the task either runs to
completion (publishing at most one order) or panics. -/
inductive RiskOutcome
  | completed (published : Option OrderRequest)
  | panicked
deriving DecidableEq

/-- Lowercased-substring test `resp.to_lowercase().contains(pat)`
(risk.rs line 113; ASCII model). -/
def containsLowered (resp : List Char) (pat : String) : Bool :=
  containsSub (resp.map asciiLowerChar) pat.data

/-- The LLM path of `RiskEngine::assess_risk` (risk.rs lines 87-135),
taken when `signal.thesis` does not start with `"HFT"`.  `account` is the
`get_account` response, `agentResp` the Risk agent's response text. -/
def assess_risk_llm_path (fromStr : List Char → Option Json)
    (symbol action : String) (account : Except String AccountSummary)
    (agentResp : Except String (List Char)) : RiskOutcome :=
  match account with
  | .error _ => .completed none
  | .ok _ =>
    match agentResp with
    | .error _ => .completed none
    | .ok resp =>
      if !containsLowered resp "approved" && !containsLowered resp "true" then
        .completed none
      else
        match parse_risk_parameters fromStr resp with
        | none => .panicked
        | some (sl, tp) =>
          .completed (some { symbol := symbol, action := action, qty := 0,
                             order_type := "market", limit_price := none,
                             stop_loss := sl, take_profit := tp })

/-! ## Execution engine buy-path gate  (src/services/execution_fast.rs) -/

/-- The duplicate-position / pending-order gate of
`ExecutionEngine::execute_fast` (execution_fast.rs lines 157-172),
evaluated after rate-limit acquisition: `true` means the request proceeds
to the quote-lookup step, `false` means it is dropped with no order
submitted and no tracker change. -/
def execute_fast_buy_gate (t : PositionTracker) (symbol : String) : Bool :=
  if t.has_position symbol then false
  else if (t.get_all_pending_orders).any (fun p => p.symbol = symbol) then false
  else true

/-! ## Concrete inputs used by counterexamples and witnesses -/

/-- An HFT configuration that evaluates on every quote and accepts any
non-negative edge. -/
def hftCfg1 : HftConfig :=
  { evaluate_every_quotes := 1, min_edge_bps := 0, take_profit_bps := 100,
    stop_loss_bps := 50, max_spread_bps := 1000 }

/-- An open, non-closing position that still has its protective order id. -/
def posWithOrder : PositionInfo :=
  { symbol := "BTC/USD", entry_price := 100, qty := 1, stop_loss := 95,
    take_profit := 105, entry_time := "t0", side := "buy", is_closing := false,
    open_order_id := some "o1", last_recreate_attempt := none,
    recreate_attempts := 0, highest_price := 100, trailing_stop_active := false,
    trailing_stop_price := 95 }

/-- An orphaned, non-closing position (no protective order id). -/
def posOrphan : PositionInfo :=
  { posWithOrder with open_order_id := none }

/-- A pending protective sell order for `"BTC/USD"`. -/
def pendSell : PendingOrder :=
  { order_id := "o1", symbol := "BTC/USD", side := "sell", limit_price := 105,
    qty := 1, created_at := "t0", stop_loss := none, take_profit := none,
    last_check_time := none }

/-- Tracker holding only `posWithOrder`. -/
def trackerWithOrder : PositionTracker :=
  { positions := [("BTC/USD", posWithOrder)], pending_orders := [] }

/-- Tracker holding only `posOrphan`. -/
def trackerOrphan : PositionTracker :=
  { positions := [("BTC/USD", posOrphan)], pending_orders := [] }

/-- Tracker holding `posOrphan` plus the pending sell `pendSell`. -/
def trackerOrphanPend : PositionTracker :=
  { positions := [("BTC/USD", posOrphan)], pending_orders := [("o1", pendSell)] }

/-- Tracker holding a pending SELL order but no position. -/
def trackerPendOnly : PositionTracker :=
  { positions := [], pending_orders := [("o1", pendSell)] }

/-- Tracker holding `posWithOrder` plus its pending sell `pendSell`. -/
def trackerWithOrderPend : PositionTracker :=
  { positions := [("BTC/USD", posWithOrder)], pending_orders := [("o1", pendSell)] }

/-- `posOrphan` after three failed recreation attempts. -/
def posOrphan3 : PositionInfo :=
  { posOrphan with recreate_attempts := 3 }

/-- Tracker holding only `posOrphan3`. -/
def trackerOrphan3 : PositionTracker :=
  { positions := [("BTC/USD", posOrphan3)], pending_orders := [] }

/-! ## Helper lemmas -/

theorem assocGet_assocInsert (k : String) (v : β) (m : List (String × β)) :
    assocGet (assocInsert k v m) k = some v := by
  simp [assocGet, assocInsert, List.find?]

theorem get_position_add_position (t : PositionTracker) (info : PositionInfo) :
    (t.add_position info).get_position info.symbol
      = some { info with is_closing := false } := by
  simpa [PositionTracker.add_position, PositionTracker.get_position] using
    assocGet_assocInsert info.symbol ({ info with is_closing := false }) t.positions

theorem find?_mark_closing (s : String) (l : List (String × PositionInfo)) :
    (l.map (fun p => if p.1 = s then (p.1, { p.2 with is_closing := true }) else p)).find?
        (fun p => p.1 = s)
      = (l.find? (fun p => p.1 = s)).map
          (fun p => (p.1, { p.2 with is_closing := true })) := by
  induction l with
  | nil => simp
  | cons a l ih =>
    by_cases h : a.1 = s
    · simp [List.find?, h]
    · simp [List.find?, h, ih]

theorem get_position_mark_closing (t : PositionTracker) (s : String) :
    (t.mark_closing s).get_position s
      = (t.get_position s).map (fun p => { p with is_closing := true }) := by
  unfold PositionTracker.mark_closing PositionTracker.get_position assocGet
  rw [find?_mark_closing]
  cases t.positions.find? (fun p => p.1 = s) <;> simp

theorem pushBounded_length_le {α : Type _} (limit : Nat) (h : 1 ≤ limit)
    (q : List α) (hq : q.length ≤ limit) (x : α) :
    (pushBounded limit q x).length ≤ limit := by
  unfold pushBounded
  by_cases hc : limit ≤ q.length
  · have heq : q.length = limit := le_antisymm hq hc
    rw [if_pos hc]
    simp [List.length_tail]
    omega
  · rw [if_neg hc]
    simp
    omega

theorem foldl_pushBounded_length {α : Type _} (limit : Nat) (h : 1 ≤ limit)
    (updates : List α) :
    ∀ (q : List α), q.length ≤ limit →
      ((updates.foldl (pushBounded limit) q).length ≤ limit) := by
  induction updates with
  | nil => intro q hq; simpa using hq
  | cons x xs ih =>
    intro q hq
    exact ih (pushBounded limit q x) (pushBounded_length_le limit h q hq x)

theorem pushBounded_at_capacity {α : Type _} (limit : Nat) (q : List α) (x : α)
    (hq : q.length = limit) : pushBounded limit q x = q.tail ++ [x] := by
  unfold pushBounded
  rw [if_pos (le_of_eq hq.symm)]

/-! ## Claim theorems -/

/-- C10: `PositionTracker::add_position` always stores the position with
`is_closing = false`, whatever the flag's value on the argument; hence
re-inserting a position after `mark_closing` (as the orphan-recreation and
quantity-reconciliation paths do) erases a previously set closing mark. -/
theorem add_position_forces_not_closing (t : PositionTracker)
    (info : PositionInfo) (s : String) :
    (t.add_position info).get_position info.symbol
        = some { info with is_closing := false }
  ∧ ((t.mark_closing s).add_position info).get_position info.symbol
        = some { info with is_closing := false } :=
  ⟨get_position_add_position t info,
   get_position_add_position (t.mark_closing s) info⟩

/-- C7 (amended: requires `history_limit ≥ 1`): for every sequence of
updates on one symbol's queue, starting from the empty history a fresh
symbol gets, the stored quote history never exceeds `history_limit`
elements, and an insertion performed at capacity drops the oldest element
while appending the new one; the same holds for trade and bar queues. -/
theorem quote_history_bounded_drop_oldest (limit : Nat) (h : 1 ≤ limit) :
    (∀ updates : List Quote, (updates.foldl (update_quote limit) []).length ≤ limit)
  ∧ (∀ (q : List Quote) (x : Quote), q.length = limit →
      update_quote limit q x = q.tail ++ [x])
  ∧ (∀ updates : List Trade, (updates.foldl (update_trade limit) []).length ≤ limit)
  ∧ (∀ (q : List Trade) (x : Trade), q.length = limit →
      update_trade limit q x = q.tail ++ [x])
  ∧ (∀ updates : List Bar, (updates.foldl (update_bar limit) []).length ≤ limit)
  ∧ (∀ (q : List Bar) (x : Bar), q.length = limit →
      update_bar limit q x = q.tail ++ [x]) := by
  refine ⟨fun u => ?_, fun q x hq => ?_, fun u => ?_, fun q x hq => ?_,
          fun u => ?_, fun q x hq => ?_⟩ <;>
    first
      | exact foldl_pushBounded_length limit h u [] (by simp)
      | exact pushBounded_at_capacity limit q x hq

/-- C7 witness: the bound and the drop-oldest behaviour at the concrete
capacity 2. -/
theorem quote_history_bounded_drop_oldest_witness :
    ((([⟨"B", 1, 1, 1, 1, "t1"⟩, ⟨"B", 2, 2, 2, 2, "t2"⟩,
        ⟨"B", 3, 3, 3, 3, "t3"⟩] : List Quote).foldl (update_quote 2) []).length ≤ 2)
  ∧ update_quote 2 [⟨"B", 1, 1, 1, 1, "t1"⟩, ⟨"B", 2, 2, 2, 2, "t2"⟩]
      ⟨"B", 3, 3, 3, 3, "t3"⟩
      = [⟨"B", 2, 2, 2, 2, "t2"⟩, ⟨"B", 3, 3, 3, 3, "t3"⟩] :=
  ⟨(quote_history_bounded_drop_oldest 2 (by decide)).1 _,
   (quote_history_bounded_drop_oldest 2 (by decide)).2.1 _ _ (by decide)⟩

/-- C7 counterexample: with `history_limit = 0` a single insertion leaves
one stored quote, so the history exceeds the limit (`pop_front` on the
empty deque is a no-op and `push_back` still appends). -/
theorem quote_history_limit_zero_counterexample :
    ¬ ((([⟨"BTC/USD", 1, 1, 1, 1, "t"⟩] : List Quote).foldl
          (update_quote 0) []).length ≤ 0) := by
  decide

/-- C3 (amended: requires `min_order ≤ max_order`): for `price > 0` and
`buying_power > 0`, `compute_order_sizing` returns `none` when
`0.95 · buying_power < min_order`, and otherwise a sizing whose notional
lies in `[min_order, min(max_order, 0.95 · buying_power)]` with
`qty = notional / price` and `limit_price = price`. -/
theorem compute_order_sizing_bounds (price bp mn mx pct : ℚ)
    (hprice : 0 < price) (hbp : 0 < bp) (hmm : mn ≤ mx) :
    (bp * (95 / 100) < mn → compute_order_sizing price bp mn mx pct = none)
  ∧ (¬ bp * (95 / 100) < mn →
      ∃ s, compute_order_sizing price bp mn mx pct = some s
        ∧ mn ≤ s.notional ∧ s.notional ≤ mx ∧ s.notional ≤ bp * (95 / 100)
        ∧ s.qty = s.notional / price ∧ s.limit_price = price) := by
  have hnle : ¬ (price ≤ 0 ∨ bp ≤ 0) := by
    push_neg
    exact ⟨hprice, hbp⟩
  unfold compute_order_sizing
  rw [if_neg hnle]
  set notional0 := bp * pct with hn0
  set notional1 := if notional0 < mn then mn else notional0 with hn1
  set notional2 := if notional1 > mx then mx else notional1 with hn2
  have h1 : mn ≤ notional1 := by
    rw [hn1]
    split <;> linarith
  have h2 : mn ≤ notional2 := by
    rw [hn2]
    split <;> linarith
  have h3 : notional2 ≤ mx := by
    rw [hn2]
    split
    next => exact le_refl mx
    next hgt => exact le_of_not_lt hgt
  constructor
  · intro hlow
    have : notional2 > bp * (95 / 100) := by linarith
    rw [if_pos this, if_pos hlow]
  · intro hok
    by_cases hcap : notional2 > bp * (95 / 100)
    · rw [if_pos hcap, if_neg hok]
      exact ⟨_, rfl, by linarith, by linarith, le_refl _, rfl, rfl⟩
    · rw [if_neg hcap]
      exact ⟨_, rfl, h2, h3, not_lt.mp hcap, rfl, rfl⟩

/-- C3 witness: at `price = 2`, `balance = 100`, `min = 10`, `max = 40`,
`pct = 0.5` the sizing is affordable and lands inside the claimed
interval. -/
theorem compute_order_sizing_bounds_witness :
    ¬ (100 : ℚ) * (95 / 100) < 10
  ∧ ∃ s, compute_order_sizing 2 100 10 40 (1 / 2) = some s
      ∧ (10 : ℚ) ≤ s.notional ∧ s.notional ≤ 40
      ∧ s.notional ≤ (100 : ℚ) * (95 / 100)
      ∧ s.qty = s.notional / 2 ∧ s.limit_price = 2 :=
  ⟨by norm_num,
   (compute_order_sizing_bounds 2 100 10 40 (1 / 2) (by norm_num) (by norm_num)
      (by norm_num)).2 (by norm_num)⟩

/-- C3 counterexample: with `min_order = 20 > max_order = 10` (and
`0.95 · balance = 95 ≥ min`), the function still returns a sizing, but its
notional `10` lies below `min_order`, outside the claimed interval
`[min, min(max, 0.95 · balance)]`. -/
theorem compute_order_sizing_min_gt_max_counterexample :
    compute_order_sizing 1 100 20 10 (3 / 20) = some ⟨10, 10, 1⟩
  ∧ ¬ ((100 : ℚ) * (95 / 100) < 20)
  ∧ ¬ ((20 : ℚ) ≤ (10 : ℚ)) := by
  refine ⟨?_, by norm_num, by norm_num⟩
  norm_num [compute_order_sizing]

/-- C9 (amended): after rate-limit acquisition the buy request is dropped
exactly when the Tracker already holds a position for the symbol or ANY
active pending order for it — pending sells block a buy too, not only
pending buys. -/
theorem execute_fast_buy_gate_drop_condition (t : PositionTracker)
    (symbol : String) :
    execute_fast_buy_gate t symbol = false
      ↔ ((t.get_position symbol).isSome
          ∨ ∃ o ∈ t.get_all_pending_orders, o.symbol = symbol) := by
  unfold execute_fast_buy_gate PositionTracker.has_position
  by_cases hp : (t.get_position symbol).isSome
  · simp [hp]
  · simp only [hp, Bool.false_eq_true, if_false, false_or]
    by_cases hq : (t.get_all_pending_orders).any (fun p => p.symbol = symbol)
    · simp only [hq, if_true]
      simp only [List.any_eq_true, decide_eq_true_eq] at hq
      simpa using hq
    · simp only [hq, Bool.false_eq_true, if_false]
      simp only [List.any_eq_true, decide_eq_true_eq] at hq
      simpa using hq

/-- C9 counterexample: a tracker holding a pending SELL order for
`"BTC/USD"` and no position.  The gate drops the buy request even though
there is neither a position nor an active pending BUY for the symbol. -/
theorem execute_fast_buy_gate_pending_sell_counterexample :
    execute_fast_buy_gate trackerPendOnly "BTC/USD" = false
  ∧ trackerPendOnly.has_position "BTC/USD" = false
  ∧ (trackerPendOnly.get_all_pending_orders.any
        (fun o => o.symbol = "BTC/USD" && o.side = "buy")) = false := by
  decide

/-- Step equation for a tracked symbol: the quote-driven position block
with the `get_position` lookup resolved. -/
theorem monitor_position_step_eq (now : Nat) (price : ℚ)
    (pending : List PendingOrder) (t : PositionTracker) (symbol : String)
    (p : PositionInfo) (hp : t.get_position symbol = some p) :
    monitor_position_step now price pending t symbol =
      (if p.is_closing then (t, [])
       else if p.open_order_id.isNone then
         if 3 ≤ p.recreate_attempts then (t.remove_position p.symbol, [])
         else if cooldown_active now p then (t, [])
         else if !(pending.any (isPendingSellFor p.symbol)) then
           (t.add_position
              { p with last_recreate_attempt := some now,
                       recreate_attempts := p.recreate_attempts + 1 },
            [.recreateInvoked
              { p with last_recreate_attempt := some now,
                       recreate_attempts := p.recreate_attempts + 1 }])
         else
           match pending.find? (isPendingSellFor p.symbol) with
           | some o =>
             tpSlCheck price p
               (t.add_position { p with open_order_id := some o.order_id })
           | none => (t, [])
       else (t, [])) := by
  unfold monitor_position_step
  rw [hp]

/-- The take-profit / stop-loss checks never invoke the recreate pass. -/
theorem recreate_not_in_tpSlCheck (price : ℚ) (p : PositionInfo)
    (t' : PositionTracker) (q : PositionInfo) :
    MonitorEffect.recreateInvoked q ∉ (tpSlCheck price p t').2 := by
  unfold tpSlCheck
  split
  · simp
  · split <;> simp

/-- C1 (amended): the position-level take-profit / stop-loss checks run
only when `open_order_id` is `None`: when the id is present the monitor
skips the position entirely, publishing nothing and leaving the tracker
unchanged; when the id is `None` and the snapshot holds a pending sell
to link (attempts below 3, cooldown inactive), the step links the order
and then publishes `take_profit` when `current_price ≥ take_profit`, else
`stop_loss` when `current_price ≤ stop_loss`, marking the position
closing. -/
theorem monitor_tp_sl_only_without_open_order (now : Nat) (price : ℚ)
    (pending : List PendingOrder) (t : PositionTracker) (symbol : String)
    (p : PositionInfo) (hp : t.get_position symbol = some p)
    (hnc : p.is_closing = false) :
    (∀ oid, p.open_order_id = some oid →
        monitor_position_step now price pending t symbol = (t, []))
  ∧ (p.open_order_id = none → p.recreate_attempts < 3 →
      cooldown_active now p = false →
      ∀ o, pending.find? (isPendingSellFor p.symbol) = some o →
        monitor_position_step now price pending t symbol
          = tpSlCheck price p
              (t.add_position { p with open_order_id := some o.order_id }))
  ∧ (∀ t' : PositionTracker, p.take_profit ≤ price →
        tpSlCheck price p t'
          = (t'.mark_closing p.symbol, [.exitSignal p.symbol "take_profit" price]))
  ∧ (∀ t' : PositionTracker, ¬ p.take_profit ≤ price → price ≤ p.stop_loss →
        tpSlCheck price p t'
          = (t'.mark_closing p.symbol, [.exitSignal p.symbol "stop_loss" price])) := by
  rw [monitor_position_step_eq now price pending t symbol p hp]
  refine ⟨fun oid hoid => ?_, fun hnone hlt hcd o hfind => ?_,
          fun t' htp => ?_, fun t' htp hsl => ?_⟩
  · simp [hnc, hoid]
  · have hany : pending.any (isPendingSellFor p.symbol) = true := by
      rcases List.mem_of_find?_eq_some hfind with hmem
      exact List.any_eq_true.mpr ⟨o, hmem, List.find?_some hfind⟩
    simp [hnc, hnone, Nat.not_le.mpr hlt, hcd, hany, hfind]
  · simp [tpSlCheck, htp]
  · simp [tpSlCheck, htp, hsl]

/-- C1 witness: an orphaned position linked to an existing pending sell,
with the price above take-profit: the step publishes the `take_profit`
exit signal and marks the position closing. -/
theorem monitor_tp_sl_only_without_open_order_witness :
    monitor_position_step 0 110 [pendSell] trackerOrphanPend "BTC/USD"
      = tpSlCheck 110 posOrphan
          (trackerOrphanPend.add_position { posOrphan with open_order_id := some "o1" })
  ∧ tpSlCheck 110 posOrphan
        (trackerOrphanPend.add_position { posOrphan with open_order_id := some "o1" })
      = ((trackerOrphanPend.add_position
            { posOrphan with open_order_id := some "o1" }).mark_closing "BTC/USD",
         [.exitSignal "BTC/USD" "take_profit" 110]) := by
  have h := monitor_tp_sl_only_without_open_order 0 110 [pendSell] trackerOrphanPend
    "BTC/USD" posOrphan (by decide) (by decide)
  exact ⟨h.2.1 rfl (by decide) (by decide) pendSell (by decide),
         h.2.2.1 _ (by decide)⟩

/-- C1 counterexample: an open, non-closing position whose
`open_order_id` is present, observed at a price above its take-profit:
the quote-driven block publishes nothing and leaves the tracker unchanged
(line 407-409 `continue`s when the id is present), contradicting the
claimed take-profit exit. -/
theorem monitor_skips_position_with_open_order_counterexample :
    trackerWithOrder.get_position "BTC/USD" = some posWithOrder
  ∧ posWithOrder.is_closing = false
  ∧ posWithOrder.open_order_id = some "o1"
  ∧ posWithOrder.take_profit ≤ 110
  ∧ (0 : ℚ) < 110
  ∧ monitor_position_step 0 110 [] trackerWithOrder "BTC/USD"
      = (trackerWithOrder, []) := by
  decide

/-- C2: orphan recreation is attempted only when `recreate_attempts < 3`
(an encounter at 3 or more removes the position from the tracker instead),
only when the previous attempt is at least 30 seconds old, and each
attempt increments the counter and stamps the attempt time. -/
theorem orphan_recreate_retry_policy (now : Nat) (price : ℚ)
    (pending : List PendingOrder) (t : PositionTracker) (symbol : String)
    (p : PositionInfo) (hp : t.get_position symbol = some p)
    (hnc : p.is_closing = false) (horph : p.open_order_id = none) :
    (3 ≤ p.recreate_attempts →
        monitor_position_step now price pending t symbol
          = (t.remove_position p.symbol, []))
  ∧ (∀ tl, p.last_recreate_attempt = some tl → now - tl < 30 →
        monitor_position_step now price pending t symbol
          = (t, []) ∨ 3 ≤ p.recreate_attempts)
  ∧ (∀ q, MonitorEffect.recreateInvoked q
        ∈ (monitor_position_step now price pending t symbol).2 →
      p.recreate_attempts < 3
      ∧ q.recreate_attempts = p.recreate_attempts + 1
      ∧ q.last_recreate_attempt = some now
      ∧ (∀ tl, p.last_recreate_attempt = some tl → 30 ≤ now - tl)) := by
  rw [monitor_position_step_eq now price pending t symbol p hp]
  refine ⟨fun h3 => ?_, fun tl htl hclose => ?_, fun q hq => ?_⟩
  · simp [hnc, horph, h3]
  · by_cases h3 : 3 ≤ p.recreate_attempts
    · exact Or.inr h3
    · refine Or.inl ?_
      have hcd : cooldown_active now p = true := by
        simp [cooldown_active, htl, hclose]
      simp [hnc, horph, h3, hcd]
  · by_cases h3 : 3 ≤ p.recreate_attempts
    · simp [hnc, horph, h3] at hq
    · by_cases hcd : cooldown_active now p = true
      · simp [hnc, horph, h3, hcd] at hq
      · have hcd' : cooldown_active now p = false := by
          simpa using hcd
        by_cases hany : pending.any (isPendingSellFor p.symbol) = true
        · rcases hfind : pending.find? (isPendingSellFor p.symbol) with _ | o
          · simp [hnc, horph, h3, hcd', hany, hfind] at hq
          · simp only [hnc, horph, h3, hcd', hany, hfind, Bool.not_true,
              Bool.false_eq_true, if_false, Option.isNone_none, if_true,
              Bool.true_eq_false] at hq
            exact absurd hq (recreate_not_in_tpSlCheck price p _ q)
        · have hany' : pending.any (isPendingSellFor p.symbol) = false := by
            simpa using hany
          simp [hnc, horph, h3, hcd', hany'] at hq
          refine ⟨Nat.lt_of_not_le h3, by simp [hq], by simp [hq], fun tl htl => ?_⟩
          have hn30 : ¬ (now - tl < 30) := by
            intro hlt
            have hcdt : cooldown_active now p = true := by
              simp [cooldown_active, htl, hlt]
            rw [hcd'] at hcdt
            exact Bool.false_ne_true hcdt
          omega

/-- C2 witness: a fourth encounter (`recreate_attempts = 3`) removes the
orphan from the tracker. -/
theorem orphan_recreate_retry_policy_witness :
    monitor_position_step 0 50 [] trackerOrphan3 "BTC/USD"
      = (trackerOrphan3.remove_position "BTC/USD", []) :=
  (orphan_recreate_retry_policy 0 50 [] trackerOrphan3 "BTC/USD" posOrphan3
      (by decide) (by decide) (by decide)).1 (by decide)

theorem assocGet_assocRemove (k : String) (m : List (String × β)) :
    assocGet (assocRemove k m) k = none := by
  induction m with
  | nil => rfl
  | cons a l ih =>
    by_cases h : a.1 = k
    · simpa [assocRemove, assocGet, List.filter_cons, h] using ih
    · simpa [assocRemove, assocGet, List.filter_cons, h, List.find?] using ih

/-- C5: when the venue reports a pending sell as `canceled` or `expired`,
the same handling step removes the pending order from the tracker, stores
the parent position with `open_order_id = None`, and immediately triggers
the recreate pass on it. -/
theorem pending_sell_cancel_clears_and_recreates (status : String)
    (order : PendingOrder) (t : PositionTracker) (pos : PositionInfo)
    (hs : eqIgnoreAsciiCase status "canceled" = true
        ∨ eqIgnoreAsciiCase status "expired" = true)
    (hp : t.get_position order.symbol = some pos)
    (hsym : pos.symbol = order.symbol) :
    check_pending_sell_order (.ok status) order t
        = ((t.remove_pending_order order.order_id).add_position
             { pos with open_order_id := none },
           [.recreateInvoked { pos with open_order_id := none }])
  ∧ assocGet (check_pending_sell_order (.ok status) order t).1.pending_orders
        order.order_id = none
  ∧ (check_pending_sell_order (.ok status) order t).1.get_position order.symbol
        = some { pos with open_order_id := none, is_closing := false } := by
  have hfill : eqIgnoreAsciiCase status "filled" = false := by
    rcases hs with h | h <;>
      · simp only [eqIgnoreAsciiCase, decide_eq_true_eq] at h
        simp only [eqIgnoreAsciiCase, h]
        decide
  have hcan : (eqIgnoreAsciiCase status "canceled"
      || eqIgnoreAsciiCase status "expired") = true := by
    rcases hs with h | h <;> simp [h]
  have hp1 : (t.remove_pending_order order.order_id).get_position order.symbol
      = some pos := hp
  have hmain : check_pending_sell_order (.ok status) order t
      = ((t.remove_pending_order order.order_id).add_position
           { pos with open_order_id := none },
         [.recreateInvoked { pos with open_order_id := none }]) := by
    unfold check_pending_sell_order
    simp only [hfill, Bool.false_eq_true, if_false, hcan, if_true, hp1]
  refine ⟨hmain, ?_, ?_⟩
  · rw [hmain]
    exact assocGet_assocRemove order.order_id t.pending_orders
  · rw [hmain, ← hsym]
    have := get_position_add_position (t.remove_pending_order order.order_id)
      ({ pos with open_order_id := none })
    simpa using this

/-- C5 witness: a concrete `canceled` acknowledgement on the tracked
pending sell of `trackerWithOrderPend`. -/
theorem pending_sell_cancel_clears_and_recreates_witness :
    assocGet (check_pending_sell_order (.ok "canceled") pendSell
        trackerWithOrderPend).1.pending_orders "o1" = none
  ∧ (check_pending_sell_order (.ok "canceled") pendSell
        trackerWithOrderPend).1.get_position "BTC/USD"
      = some { posWithOrder with open_order_id := none, is_closing := false }
  ∧ (check_pending_sell_order (.ok "canceled") pendSell trackerWithOrderPend).2
      = [.recreateInvoked { posWithOrder with open_order_id := none }] := by
  have h := pending_sell_cancel_clears_and_recreates "canceled" pendSell
    trackerWithOrderPend posWithOrder (Or.inl (by decide)) (by decide) (by decide)
  exact ⟨h.2.1, h.2.2, by rw [h.1]⟩

/-- C6: when the first protective-sell submission of a recreate pass fails,
the monitor re-fetches venue positions and retries exactly once, with the
freshly read quantity stored into the tracker, precisely when the error
message matches the insufficient-balance pattern (`"403"` and `"40310000"`,
or substring `"insufficient balance"`) and the re-fetch yields the symbol
with a positive quantity; on any other submission error it performs no
further venue call. -/
theorem recreate_insufficient_balance_retry
    (fetch1 : Except String (List VenuePosition)) (msg : String)
    (fetch2 : Except String (List VenuePosition)) (submit2 : Except String String)
    (now : Nat) (nowStr : String) (p : PositionInfo) (t : PositionTracker)
    (hx : (verify_holdings fetch1 p).2 = true)
    (hq : ¬ reconciled_qty fetch1 p ≤ 0) :
    (insufficient_balance_error msg = true →
      ∀ ps2 vp, fetch2 = .ok ps2 →
        ps2.find? (fun v => v.symbol = p.symbol) = some vp → ¬ vp.qty ≤ 0 →
        (recreate_limit_sell_order fetch1 (.error msg) fetch2 submit2
            now nowStr p t).2
          = [.getPositions,
             .submitSell p.symbol (reconciled_qty fetch1 p) p.take_profit,
             .getPositions, .submitSell p.symbol vp.qty p.take_profit]
        ∧ (((recreate_limit_sell_order fetch1 (.error msg) fetch2 submit2
              now nowStr p t).1.get_position p.symbol).map (fun q => q.qty))
            = some vp.qty)
  ∧ (insufficient_balance_error msg = false →
      (recreate_limit_sell_order fetch1 (.error msg) fetch2 submit2
          now nowStr p t).2
        = [.getPositions,
           .submitSell p.symbol (reconciled_qty fetch1 p) p.take_profit]) := by
  constructor
  · intro hibe ps2 vp hf2 hfind hvq
    unfold recreate_limit_sell_order
    simp only [hx, Bool.not_true, Bool.false_eq_true, if_false, hq, hibe,
      if_true, hf2, hfind, hvq]
    rcases submit2 with e | id2
    · constructor
      · rfl
      · simp only []
        exact congrArg (Option.map fun q => q.qty)
          (get_position_add_position _ { p with qty := vp.qty })
    · constructor
      · rfl
      · simp only [PositionTracker.add_pending_order]
        exact congrArg (Option.map fun q => q.qty)
          (get_position_add_position _
            { p with qty := vp.qty, open_order_id := some id2 })
  · intro hibe
    unfold recreate_limit_sell_order
    simp only [hx, Bool.not_true, Bool.false_eq_true, if_false, hq, hibe, if_true]

/-- C6 witness: a concrete insufficient-balance error (`"insufficient
balance"`), a re-fetch reporting qty `0.97`, and a successful retry. -/
theorem recreate_insufficient_balance_retry_witness :
    (recreate_limit_sell_order (.ok [⟨"BTC/USD", 1⟩]) (.error "insufficient balance")
        (.ok [⟨"BTC/USD", 97 / 100⟩]) (.ok "o2") 0 "t1" posOrphan trackerOrphan).2
      = [.getPositions, .submitSell "BTC/USD" 1 105,
         .getPositions, .submitSell "BTC/USD" (97 / 100) 105]
  ∧ (((recreate_limit_sell_order (.ok [⟨"BTC/USD", 1⟩])
        (.error "insufficient balance") (.ok [⟨"BTC/USD", 97 / 100⟩]) (.ok "o2")
        0 "t1" posOrphan trackerOrphan).1.get_position "BTC/USD").map
          (fun q => q.qty))
      = some (97 / 100) := by
  have hrq : reconciled_qty (.ok [⟨"BTC/USD", 1⟩]) posOrphan = 1 := by
    norm_num [reconciled_qty, verify_holdings, ratAbs, posOrphan, posWithOrder,
      List.find?]
  have hq0 : ¬ reconciled_qty (.ok [⟨"BTC/USD", 1⟩]) posOrphan ≤ 0 := by
    rw [hrq]
    norm_num
  have hvq : ¬ (⟨"BTC/USD", 97 / 100⟩ : VenuePosition).qty ≤ 0 := by
    show ¬ (97 / 100 : ℚ) ≤ 0
    norm_num
  have h := (recreate_insufficient_balance_retry (.ok [⟨"BTC/USD", 1⟩])
    "insufficient balance" (.ok [⟨"BTC/USD", 97 / 100⟩]) (.ok "o2") 0 "t1"
    posOrphan trackerOrphan rfl hq0).1 (by decide)
    [⟨"BTC/USD", 97 / 100⟩] ⟨"BTC/USD", 97 / 100⟩ rfl rfl hvq
  refine ⟨?_, h.2⟩
  rw [h.1, hrq]
  simp [posOrphan, posWithOrder]

/-- C4 (amended: at an evaluation quote the buy-signal iff holds provided
the ring holds at least two mids after the push; with a single mid the
code publishes nothing even when the claim's formula yields an edge at or
above the threshold): invalid quotes, wide spreads and debounced quotes
publish nothing; a quote that brings the counter to
`evaluate_every_quotes` resets the counter, and (with ≥ 2 mids in the
ring) publishes exactly one buy signal iff
`edge_bps = (mid - ring[len-1-lookback])/ring[len-1-lookback] · 10⁴ ≥
min_edge_bps` with `lookback = min(10, len-1)`, whose market context
encodes `tp = mid·(1 + tp_bps/10⁴)` and `sl = mid·(1 - sl_bps/10⁴)`. -/
theorem evaluate_hft_spec (cfg : HftConfig) (symbol : String) (bid ask : ℚ)
    (st : HftSymbolState) :
    (bid ≤ 0 ∨ ask ≤ 0 ∨ ask < bid →
      evaluate_hft cfg symbol bid ask st = (st, none))
  ∧ (¬ (bid ≤ 0 ∨ ask ≤ 0 ∨ ask < bid) →
      ((ask - bid) / ((bid + ask) / 2)) * 10000 > cfg.max_spread_bps →
      evaluate_hft cfg symbol bid ask st = (st, none))
  ∧ (¬ (bid ≤ 0 ∨ ask ≤ 0 ∨ ask < bid) →
      ¬ ((ask - bid) / ((bid + ask) / 2)) * 10000 > cfg.max_spread_bps →
      st.quotes_since_eval + 1 < cfg.evaluate_every_quotes →
      evaluate_hft cfg symbol bid ask st
        = ({ quotes_since_eval := st.quotes_since_eval + 1,
             last_mid := some ((bid + ask) / 2),
             mids := trimRing (st.mids ++ [(bid + ask) / 2]) }, none))
  ∧ (¬ (bid ≤ 0 ∨ ask ≤ 0 ∨ ask < bid) →
      ¬ ((ask - bid) / ((bid + ask) / 2)) * 10000 > cfg.max_spread_bps →
      ¬ st.quotes_since_eval + 1 < cfg.evaluate_every_quotes →
      2 ≤ (trimRing (st.mids ++ [(bid + ask) / 2])).length →
        (evaluate_hft cfg symbol bid ask st).1
            = { quotes_since_eval := 0, last_mid := some ((bid + ask) / 2),
                mids := trimRing (st.mids ++ [(bid + ask) / 2]) }
      ∧ ((evaluate_hft cfg symbol bid ask st).2
            = some { symbol := symbol, signal := "buy", confidence := 1,
                     context_tp :=
                       ((bid + ask) / 2) * (1 + cfg.take_profit_bps / 10000),
                     context_sl :=
                       ((bid + ask) / 2) * (1 - cfg.stop_loss_bps / 10000) }
          ↔ cfg.min_edge_bps
              ≤ claimedEdgeBps (trimRing (st.mids ++ [(bid + ask) / 2]))
                  ((bid + ask) / 2))
      ∧ ((evaluate_hft cfg symbol bid ask st).2 = none
          ↔ claimedEdgeBps (trimRing (st.mids ++ [(bid + ask) / 2]))
              ((bid + ask) / 2) < cfg.min_edge_bps)) := by
  refine ⟨fun hinv => ?_, fun hval hsp => ?_, fun hval hsp hcnt => ?_,
          fun hval hsp hcnt hlen => ?_⟩
  · simp only [evaluate_hft]
    rw [if_pos hinv]
  · simp only [evaluate_hft]
    rw [if_neg hval, if_pos hsp]
  · simp only [evaluate_hft]
    rw [if_neg hval, if_neg hsp, if_pos hcnt]
  · have hlb : ¬ min 10 ((trimRing (st.mids ++ [(bid + ask) / 2])).length - 1) = 0 := by
      omega
    simp only [evaluate_hft]
    rw [if_neg hval, if_neg hsp, if_neg hcnt, if_neg hlb]
    by_cases he : claimedEdgeBps (trimRing (st.mids ++ [(bid + ask) / 2]))
        ((bid + ask) / 2) < cfg.min_edge_bps
    · rw [if_pos (by simpa [claimedEdgeBps] using he)]
      refine ⟨rfl, ?_, ?_⟩
      · constructor
        · intro h
          exact absurd h (by simp)
        · intro h
          exact absurd he (not_lt.mpr h)
      · simp [he]
    · rw [if_neg (by simpa [claimedEdgeBps] using he)]
      refine ⟨rfl, ?_, ?_⟩
      · simp [not_lt.mp he]
      · simp [he]

/-- C4 witness: with `hftCfg1` (evaluate every quote, zero edge
threshold), ring `[1]` and quote `bid = ask = 2`, the evaluation resets
the counter and publishes the buy signal with
`tp = 2·1.01 = 2.02` and `sl = 2·0.995 = 1.99`. -/
theorem evaluate_hft_spec_witness :
    (evaluate_hft hftCfg1 "BTC/USD" 2 2
        { quotes_since_eval := 0, last_mid := none, mids := [1] }).1.quotes_since_eval = 0
  ∧ (evaluate_hft hftCfg1 "BTC/USD" 2 2
        { quotes_since_eval := 0, last_mid := none, mids := [1] }).2
      = some { symbol := "BTC/USD", signal := "buy", confidence := 1,
               context_tp := 101 / 50, context_sl := 199 / 100 } := by
  have h := (evaluate_hft_spec hftCfg1 "BTC/USD" 2 2
      { quotes_since_eval := 0, last_mid := none, mids := [1] }).2.2.2
    (by norm_num) (by norm_num [hftCfg1]) (by norm_num [hftCfg1])
    (by norm_num [trimRing])
  have hedge : hftCfg1.min_edge_bps
      ≤ claimedEdgeBps (trimRing (([1] : List ℚ) ++ [(2 + 2) / 2])) ((2 + 2) / 2) := by
    norm_num [hftCfg1, claimedEdgeBps, trimRing]
  refine ⟨by rw [h.1], ?_⟩
  rw [h.2.1.mpr hedge]
  norm_num [hftCfg1]

/-- C4 counterexample: with `hftCfg1` a first valid quote (ring holds a
single mid) brings the counter to `evaluate_every_quotes = 1`; the
claim's formula gives `edge_bps = 0 ≥ min_edge_bps = 0`, demanding a buy
signal, but the code returns without publishing (`lookback == 0` early
return, strategy.rs lines 283-290). -/
theorem evaluate_hft_lookback_zero_counterexample :
    ¬ ((100 : ℚ) ≤ 0 ∨ (100 : ℚ) ≤ 0 ∨ (100 : ℚ) < 100)
  ∧ ¬ (((100 : ℚ) - 100) / (((100 : ℚ) + 100) / 2)) * 10000 > hftCfg1.max_spread_bps
  ∧ hftCfg1.evaluate_every_quotes ≤ 0 + 1
  ∧ hftCfg1.min_edge_bps
      ≤ claimedEdgeBps (trimRing (([] : List ℚ) ++ [((100 : ℚ) + 100) / 2]))
          (((100 : ℚ) + 100) / 2)
  ∧ (evaluate_hft hftCfg1 "BTC/USD" 100 100
        { quotes_since_eval := 0, last_mid := none, mids := [] }).2 = none := by
  refine ⟨by norm_num, by norm_num [hftCfg1], by norm_num [hftCfg1],
          by norm_num [hftCfg1, claimedEdgeBps, trimRing], ?_⟩
  simp only [evaluate_hft]
  rw [if_neg (by norm_num), if_neg (by norm_num [hftCfg1]),
      if_neg (by norm_num [hftCfg1]), if_pos (by norm_num [trimRing])]

/-- C8 (amended: provided extracting the text between the first `\x7b`
and the last `\x7d` does not panic — on malformed responses whose first
`\x7b` starts more than one position past the last `\x7d` the handler
panics and nothing is published): on the LLM path with account fetch and
agent call succeeded, an `OrderRequest` with `order_type = "market"` and
`qty = 0` is published iff the response text contains `approved` or
`true` case-insensitively; `stop_loss`/`take_profit` come from the JSON
object in the response, with unparseable JSON or missing keys propagating
as `None`; a rejection publishes nothing and surfaces no error. -/
theorem risk_llm_path_approval (fromStr : List Char → Option Json)
    (symbol action : String) (a : AccountSummary) (resp : List Char)
    (hslice : extract_json_slice resp ≠ none) :
    (containsLowered resp "approved" = false → containsLowered resp "true" = false →
      assess_risk_llm_path fromStr symbol action (.ok a) (.ok resp)
        = .completed none)
  ∧ ((containsLowered resp "approved" = true ∨ containsLowered resp "true" = true) →
      ∃ sl tp, parse_risk_parameters fromStr resp = some (sl, tp)
        ∧ assess_risk_llm_path fromStr symbol action (.ok a) (.ok resp)
            = .completed (some { symbol := symbol, action := action, qty := 0,
                                 order_type := "market", limit_price := none,
                                 stop_loss := sl, take_profit := tp }))
  ∧ (∀ slice, extract_json_slice resp = some slice → fromStr slice = none →
      parse_risk_parameters fromStr resp = some (none, none))
  ∧ (∀ slice fields, extract_json_slice resp = some slice →
      fromStr slice = some (.obj fields) →
      parse_risk_parameters fromStr resp
        = some ((Json.obj fields).getKey "stop_loss" >>= Json.asF64,
                (Json.obj fields).getKey "take_profit" >>= Json.asF64))
  ∧ (∀ fields, (fields.find? (fun f => f.1 = "stop_loss")) = none →
      ((Json.obj fields).getKey "stop_loss" >>= Json.asF64) = none) := by
  obtain ⟨pr, hpr⟩ : ∃ pr, parse_risk_parameters fromStr resp = some pr := by
    unfold parse_risk_parameters
    rcases hs : extract_json_slice resp with _ | slice
    · exact absurd hs hslice
    · dsimp only
      rcases fromStr slice with _ | j
      · exact ⟨_, rfl⟩
      · exact ⟨_, rfl⟩
  refine ⟨fun h1 h2 => ?_, fun happ => ?_, fun slice hs hf => ?_,
          fun slice fields hs hf => ?_, fun fields hf => ?_⟩
  · simp [assess_risk_llm_path, h1, h2]
  · obtain ⟨sl, tp⟩ := pr
    refine ⟨sl, tp, hpr, ?_⟩
    have hcond : (!containsLowered resp "approved" && !containsLowered resp "true")
        = false := by
      rcases happ with h | h <;> simp [h]
    simp [assess_risk_llm_path, hcond, hpr]
  · unfold parse_risk_parameters
    rw [hs]
    dsimp only
    rw [hf]
  · unfold parse_risk_parameters
    rw [hs]
    dsimp only
    rw [hf]
  · simp [Json.getKey, hf]

/-- C8 witness: response `"approved"` (no JSON object at all): the order
is published with `order_type = "market"`, `qty = 0` and both risk
parameters `None`. -/
theorem risk_llm_path_approval_witness :
    assess_risk_llm_path (fun _ => none) "BTC/USD" "buy"
        (.ok { cash := none, portfolio_value := none, buying_power := none })
        (.ok "approved".data)
      = .completed (some { symbol := "BTC/USD", action := "buy", qty := 0,
                           order_type := "market", limit_price := none,
                           stop_loss := none, take_profit := none }) := by
  obtain ⟨sl, tp, hpr, hout⟩ := (risk_llm_path_approval (fun _ => none) "BTC/USD"
    "buy" { cash := none, portfolio_value := none, buying_power := none }
    "approved".data (by decide)).2.1 (Or.inl (by decide))
  have hval : parse_risk_parameters (fun _ => none) "approved".data
      = some (none, none) := by decide
  rw [hval] at hpr
  obtain ⟨hsl, htp⟩ : sl = none ∧ tp = none := by
    have := Option.some.inj hpr
    exact ⟨congrArg Prod.fst this.symm, congrArg Prod.snd this.symm⟩
  rw [hsl, htp] at hout
  exact hout

/-- C8 counterexample: the response `"approved \x7d \x7b"` contains
`approved`, so the claim demands a published order, but
`parse_risk_parameters` slices `&resp[start..=end]` with the first
`\x7b` at index 11 and the last `\x7d` at index 9 — a slice-index-order
panic in Rust — so the spawned task dies and nothing is published. -/
theorem risk_llm_path_panic_counterexample :
    containsLowered "approved \x7d \x7b".data "approved" = true
  ∧ assess_risk_llm_path (fun _ => none) "BTC/USD" "buy"
        (.ok { cash := none, portfolio_value := none, buying_power := none })
        (.ok "approved \x7d \x7b".data)
      = .panicked := by
  decide

end AutoHedge
